import Mathlib

/-
  Verification development for the dental-clinic generic CRUD backend
  (src/main.py and src/schemas.py).

  The embedding models BSON-like document values, the pydantic schema
  registry from schemas.py, and the five CRUD handlers from main.py.
  The document store (pymongo `db`, plus `create_document` /
  `get_documents` from the repository file database.py, which is not in
  src/) is modelled as an association list per collection, following the
  persistence interface of the spec (find-one-by-id, find-many-with-limit,
  insert-one, update-one returning matched-count, delete-one returning
  deleted-count).

  Numeric JSON values (Python int/float) are modelled as rationals; date
  and datetime fields are modelled as strings (pydantic accepts ISO
  strings for them; the parse itself is abstracted since no claim depends
  on it).
-/

set_option autoImplicit false

namespace Clinic

/-- BSON-like document values. `vId` is a MongoDB ObjectId, carried as its
24-character hex representation. -/
inductive Value where
  | vNull
  | vBool (b : Bool)
  | vNum (q : Rat)
  | vStr (s : String)
  | vId (oid : String)
  | vList (xs : List Value)
  | vDoc (fields : List (String × Value))

/-- A document is an ordered association list of fields, as a Python dict. -/
abbrev Doc := List (String × Value)

/-- Lookup of a key in a document (first occurrence), as Python `dict` access. -/
def dGet : Doc → String → Option Value
  | [], _ => none
  | (k', v) :: rest, k => if k' = k then some v else dGet rest k

/-- Set one key of a document: override in place when present, append when new.
This is the semantics of Python `dict.__setitem__` and of one MongoDB `$set` key. -/
def setKey (d : Doc) (k : String) (v : Value) : Doc :=
  if d.any (fun kv => kv.1 == k) then
    d.map (fun kv => if kv.1 = k then (k, v) else kv)
  else
    d ++ [(k, v)]

/-- Apply every key of `payload` onto `d`, in order: Python `dict.update`
and the MongoDB `$set` update operator share this semantics. -/
def applySet (d : Doc) (payload : Doc) : Doc :=
  payload.foldl (fun acc kv => setKey acc kv.1 kv.2) d

/-- serialize_doc from main.py: converts the `_id` ObjectId and every
top-level ObjectId value of the document to a string. The loop in the
source visits only the top-level items of the dict. -/
def serializeValue : Value → Value
  | .vId oid => .vStr oid
  | v => v

/-- serialize_doc from main.py lines 35-45. -/
def serialize_doc (doc : Doc) : Doc :=
  doc.map (fun kv => (kv.1, serializeValue kv.2))

/-- Hex digit test, as accepted by `bson.ObjectId`. -/
def isHexChar (c : Char) : Bool :=
  c.isDigit || ('a' ≤ c && c ≤ 'f') || ('A' ≤ c && c ≤ 'F')

/-- Validity of an ObjectId string: `bson.ObjectId(s)` accepts a
24-character hex string and raises `InvalidId` otherwise. -/
def isValidObjectIdString (s : String) : Bool :=
  s.length == 24 && s.toList.all isHexChar

/-- The `ObjectId(doc_id)` constructor: `some` parsed id, or `none` for the
`InvalidId` exception. -/
def parseObjectId (s : String) : Option String :=
  if isValidObjectIdString s then some s else none

/-- The message of the `bson.errors.InvalidId` exception, as stringified by
`str(e)` in main.py. -/
def objectIdErrMsg (s : String) : String :=
  s ++ " is not a valid ObjectId, it must be a 12-byte input or a 24-character hex string"

/-- One field of a pydantic model: its name, whether it is required, its
default value when optional, its type/constraint check, and the
normalization validation applies to a supplied value — the identity for
scalar fields, while a field typed as a nested model (Payment.items)
constructs the sub-models, filling their defaults. -/
structure FieldSpec where
  name : String
  required : Bool
  default : Option Value
  check : Value → Bool
  normalize : Value → Value

/-- The validation error a single field contributes, if any: a present value
failing its check, or a required field missing. Mirrors one field of a
pydantic `ValidationError`. -/
def fieldError (payload : Doc) (f : FieldSpec) : Option String :=
  match dGet payload f.name with
  | some v => if f.check v then none else some (f.name ++ ": invalid value")
  | none => if f.required then some (f.name ++ ": field required") else none

/-- The value a field takes in the validated model: the normalized payload
value when present, the default otherwise. pydantic keeps scalar values as
supplied (modulo coercions abstracted here) but re-constructs nested
models, so the stored value of a nested-model field carries the nested
defaults. -/
def fieldValue (payload : Doc) (f : FieldSpec) : Option (String × Value) :=
  match dGet payload f.name with
  | some v => some (f.name, f.normalize v)
  | none => f.default.map (fun d => (f.name, d))

/-- All validation errors of a payload against a schema, in field order.
pydantic collects the errors of every field before raising. -/
def validationErrors (schema : List FieldSpec) (payload : Doc) : List String :=
  schema.filterMap (fieldError payload)

/-- `Model(**payload)` for a pydantic model: fields not declared in the
schema are ignored (the pydantic default `extra` policy); on success the
model holds every declared field, with payload values overriding defaults;
on failure the error lists every violated field. -/
def validateModel (schema : List FieldSpec) (payload : Doc) : Except (List String) Doc :=
  if validationErrors schema payload = [] then
    .ok (schema.filterMap (fieldValue payload))
  else
    .error (validationErrors schema payload)

/- Constraint checks used by the schemas of schemas.py. -/

def isStr : Value → Bool
  | .vStr _ => true
  | _ => false

def isNull : Value → Bool
  | .vNull => true
  | _ => false

/-- `Optional[str]`: None or a string. -/
def optStr (v : Value) : Bool :=
  isNull v || isStr v

def isBool : Value → Bool
  | .vBool _ => true
  | _ => false

/-- `float` with `ge=lo`. -/
def numGe (lo : Rat) : Value → Bool
  | .vNum q => decide (lo ≤ q)
  | _ => false

/-- `int` with `ge=lo, le=hi`. -/
def intRange (lo hi : Rat) : Value → Bool
  | .vNum q => q.den == 1 && decide (lo ≤ q) && decide (q ≤ hi)
  | _ => false

/-- `Literal[...]` over strings. -/
def litIn (opts : List String) : Value → Bool
  | .vStr s => opts.contains s
  | _ => false

/-- `Optional[Literal[...]]`. -/
def optLitIn (opts : List String) (v : Value) : Bool :=
  isNull v || litIn opts v

/-- `List[str]`. -/
def listOfStr : Value → Bool
  | .vList xs => xs.all isStr
  | _ => false

def isDoc : Value → Bool
  | .vDoc _ => true
  | _ => false

/-- The normalization of every scalar field: the payload value is kept. -/
def idNorm : Value → Value := fun v => v

/-- `date` / `datetime` fields, modelled as strings (see header note). -/
def isDateLike : Value → Bool := isStr

/-- `Optional[date]` / `Optional[datetime]`. -/
def optDateLike (v : Value) : Bool :=
  isNull v || isStr v

/- The pydantic models of schemas.py, one `List FieldSpec` per class.
A field is required exactly when its pydantic declaration has no default
(`Field(...)` or a bare annotation). -/

/-- Receptionist (schemas.py lines 23-28). -/
def Receptionist : List FieldSpec :=
  [ ⟨"name", true, none, isStr, idNorm⟩,
    ⟨"email", true, none, isStr, idNorm⟩,
    ⟨"phone", false, some .vNull, optStr, idNorm⟩,
    ⟨"shift", false, some (.vStr "morning"), litIn ["morning", "evening", "night"], idNorm⟩,
    ⟨"is_active", false, some (.vBool true), isBool, idNorm⟩ ]

/-- Doctor (schemas.py lines 30-36). -/
def Doctor : List FieldSpec :=
  [ ⟨"name", true, none, isStr, idNorm⟩,
    ⟨"email", true, none, isStr, idNorm⟩,
    ⟨"phone", false, some .vNull, optStr, idNorm⟩,
    ⟨"specialization", false, some .vNull, optStr, idNorm⟩,
    ⟨"license_no", false, some .vNull, optStr, idNorm⟩,
    ⟨"is_active", false, some (.vBool true), isBool, idNorm⟩ ]

/-- Patient (schemas.py lines 38-51). -/
def Patient : List FieldSpec :=
  [ ⟨"first_name", true, none, isStr, idNorm⟩,
    ⟨"last_name", true, none, isStr, idNorm⟩,
    ⟨"date_of_birth", false, some .vNull, optDateLike, idNorm⟩,
    ⟨"gender", false, some .vNull, optLitIn ["male", "female", "other"], idNorm⟩,
    ⟨"email", false, some .vNull, optStr, idNorm⟩,
    ⟨"phone", false, some .vNull, optStr, idNorm⟩,
    ⟨"address", false, some .vNull, optStr, idNorm⟩,
    ⟨"allergies", false, some (.vList []), listOfStr, idNorm⟩,
    ⟨"medical_history", false, some .vNull, optStr, idNorm⟩,
    ⟨"insurance_provider", false, some .vNull, optStr, idNorm⟩,
    ⟨"insurance_member_id", false, some .vNull, optStr, idNorm⟩,
    ⟨"balance", false, some (.vNum 0), numGe 0, idNorm⟩,
    ⟨"notes", false, some .vNull, optStr, idNorm⟩ ]

/-- Procedure (schemas.py lines 57-62). -/
def Procedure : List FieldSpec :=
  [ ⟨"code", true, none, isStr, idNorm⟩,
    ⟨"name", true, none, isStr, idNorm⟩,
    ⟨"description", false, some .vNull, optStr, idNorm⟩,
    ⟨"default_duration_min", false, some (.vNum 30), intRange 5 480, idNorm⟩,
    ⟨"base_fee", true, none, numGe 0, idNorm⟩ ]

/-- Appointment (schemas.py lines 64-72). -/
def Appointment : List FieldSpec :=
  [ ⟨"patient_id", true, none, isStr, idNorm⟩,
    ⟨"doctor_id", true, none, isStr, idNorm⟩,
    ⟨"start_time", true, none, isDateLike, idNorm⟩,
    ⟨"duration_min", false, some (.vNum 30), intRange 5 480, idNorm⟩,
    ⟨"procedure_codes", false, some (.vList []), listOfStr, idNorm⟩,
    ⟨"status", false, some (.vStr "scheduled"),
      litIn ["scheduled", "checked_in", "in_progress", "completed", "cancelled", "no_show"], idNorm⟩,
    ⟨"room", false, some .vNull, optStr, idNorm⟩,
    ⟨"notes", false, some .vNull, optStr, idNorm⟩ ]

/-- PaymentItem (schemas.py lines 78-82). -/
def PaymentItem : List FieldSpec :=
  [ ⟨"description", true, none, isStr, idNorm⟩,
    ⟨"amount", true, none, numGe 0, idNorm⟩,
    ⟨"procedure_code", false, some .vNull, optStr, idNorm⟩,
    ⟨"appointment_id", false, some .vNull, optStr, idNorm⟩ ]

/-- An element of `Payment.items` is accepted when the sub-document is
valid as a PaymentItem; the construction of the sub-model (filling its
defaults) is the normalization `normalizePaymentItems` below. -/
def isPaymentItem (v : Value) : Bool :=
  match v with
  | .vDoc d => (validationErrors PaymentItem d).isEmpty
  | _ => false

def listOfPaymentItems : Value → Bool
  | .vList xs => xs.all isPaymentItem
  | _ => false

/-- pydantic constructs a PaymentItem model from each sub-document of
`Payment.items`, so the validated (and stored) item carries every declared
PaymentItem field, with the nested defaults filled for omitted ones. -/
def normalizePaymentItem (v : Value) : Value :=
  match v with
  | .vDoc d => .vDoc (PaymentItem.filterMap (fieldValue d))
  | v => v

def normalizePaymentItems (v : Value) : Value :=
  match v with
  | .vList xs => .vList (xs.map normalizePaymentItem)
  | v => v

/-- Payment (schemas.py lines 84-92). The `date_time` default is
`default_factory=datetime.utcnow`; it is modelled as a fixed timestamp
value, since no claim depends on the clock. -/
def Payment : List FieldSpec :=
  [ ⟨"patient_id", true, none, isStr, idNorm⟩,
    ⟨"amount", true, none, numGe 0, idNorm⟩,
    ⟨"method", true, none, litIn ["cash", "card", "transfer", "insurance"], idNorm⟩,
    ⟨"status", false, some (.vStr "paid"), litIn ["pending", "paid", "refunded", "failed"], idNorm⟩,
    ⟨"reference", false, some .vNull, optStr, idNorm⟩,
    ⟨"date_time", false, some (.vStr "1970-01-01T00:00:00"), isDateLike, idNorm⟩,
    ⟨"items", false, some (.vList []), listOfPaymentItems, normalizePaymentItems⟩,
    ⟨"notes", false, some .vNull, optStr, idNorm⟩ ]

/-- Report (schemas.py lines 94-99). -/
def Report : List FieldSpec :=
  [ ⟨"type", true, none, litIn ["daily", "financial", "inventory", "custom"], idNorm⟩,
    ⟨"period_start", false, some .vNull, optDateLike, idNorm⟩,
    ⟨"period_end", false, some .vNull, optDateLike, idNorm⟩,
    ⟨"generated_by", false, some .vNull, optStr, idNorm⟩,
    ⟨"data", false, some (.vDoc []), isDoc, idNorm⟩ ]

/-- Consumable (schemas.py lines 105-112). -/
def Consumable : List FieldSpec :=
  [ ⟨"name", true, none, isStr, idNorm⟩,
    ⟨"unit", false, some (.vStr "pcs"), litIn ["pcs", "ml", "g", "box", "pack", "bottle", "tube"], idNorm⟩,
    ⟨"stock_qty", false, some (.vNum 0), numGe 0, idNorm⟩,
    ⟨"reorder_level", false, some (.vNum 0), numGe 0, idNorm⟩,
    ⟨"cost_per_unit", false, some (.vNum 0), numGe 0, idNorm⟩,
    ⟨"vendor", false, some .vNull, optStr, idNorm⟩,
    ⟨"sku", false, some .vNull, optStr, idNorm⟩ ]

/-- MODEL_MAP from main.py lines 47-56. -/
def MODEL_MAP : List (String × List FieldSpec) :=
  [ ("receptionist", Receptionist),
    ("doctor", Doctor),
    ("patient", Patient),
    ("procedure", Procedure),
    ("appointment", Appointment),
    ("payment", Payment),
    ("report", Report),
    ("consumable", Consumable) ]

/-- The `collection not in MODEL_MAP` test plus the `MODEL_MAP[collection]`
access of main.py, as one lookup. -/
def lookupModel (c : String) : Option (List FieldSpec) :=
  (MODEL_MAP.find? (fun p => p.1 == c)).map (fun p => p.2)

/-- Python `str.lower`, as called on the `collection` path parameter by
every handler of main.py. Defined over the character list so that concrete
instances evaluate; on the ASCII names involved it agrees with
`String.toLower`. -/
def lowerStr (s : String) : String :=
  String.mk (s.data.map Char.toLower)

/-- The error taxonomy of the service (spec section 7), as raised by the
handlers of main.py via `HTTPException`: 404 "Collection not found",
400 "Invalid id", 404 "Not found", 422 with the stringified validation
detail. -/
inductive ApiError where
  | collectionNotFound
  | invalidIdentifier
  | notFound
  | validationError (detail : List String)
deriving DecidableEq

/- The document store. A collection is an ordered list of
(ObjectId hex, document) pairs; the stored document does not repeat its
`_id` key, which is the pair key. A store maps collection names to
collections. This models the pymongo handle `db` plus the persistence
interface of spec section 6. -/

abbrev Coll := List (String × Doc)

abbrev Store := List (String × Coll)

/-- The collection of a store under a name, empty when absent. -/
def getColl : Store → String → Coll
  | [], _ => []
  | (n, docs) :: rest, c => if n = c then docs else getColl rest c

/-- Replace (or add) the collection of a store under a name. -/
def setColl : Store → String → Coll → Store
  | [], c, docs => [(c, docs)]
  | (n, d) :: rest, c, docs =>
      if n = c then (c, docs) :: rest else (n, d) :: setColl rest c docs

/-- First document of a collection with the given id. -/
def collFind : Coll → String → Option Doc
  | [], _ => none
  | (i, d) :: rest, oid => if i = oid then some d else collFind rest oid

/-- MongoDB `$set` on the document with the given id: returns the
matched count and the updated collection. -/
def collUpdate : Coll → String → Doc → Nat × Coll
  | [], _, _ => (0, [])
  | (i, d) :: rest, oid, payload =>
      if i = oid then (1, (i, applySet d payload) :: rest)
      else
        let r := collUpdate rest oid payload
        (r.1, (i, d) :: r.2)

/-- Remove the document with the given id: returns the deleted count and
the remaining collection. -/
def collRemove : Coll → String → Nat × Coll
  | [], _ => (0, [])
  | (i, d) :: rest, oid =>
      if i = oid then (1, rest)
      else
        let r := collRemove rest oid
        (r.1, (i, d) :: r.2)

/-- `db[collection].find_one({"_id": ObjectId(oid)})`: the returned
document carries its `_id` field. -/
def find_one (s : Store) (c oid : String) : Option Doc :=
  (collFind (getColl s c) oid).map (fun d => ("_id", Value.vId oid) :: d)

/-- `db[collection].update_one({"_id": oid}, {"$set": payload})`: applies
the `$set` when the id matches and reports the matched count; a miss
leaves the store untouched. -/
def update_one (s : Store) (c oid : String) (payload : Doc) : Nat × Store :=
  let r := collUpdate (getColl s c) oid payload
  if r.1 = 0 then (0, s) else (1, setColl s c r.2)

/-- `db[collection].delete_one({"_id": oid})`. -/
def delete_one (s : Store) (c oid : String) : Nat × Store :=
  let r := collRemove (getColl s c) oid
  if r.1 = 0 then (0, s) else (1, setColl s c r.2)

/-- Modelled from the spec: `create_document` lives in database.py, which
is not under src/. Per spec section 6, insert-one appends the validated
record under a fresh identifier assigned by the persistence layer; the
fresh id is passed explicitly here. -/
def create_document (s : Store) (c : String) (freshId : String) (validated : Doc) : Store :=
  setColl s c (getColl s c ++ [(freshId, validated)])

/-- Modelled from the spec: `get_documents` lives in database.py, which is
not under src/. Per spec section 6, find-many-with-limit returns up to
`limit` documents of the collection in natural order, each carrying its
`_id`. -/
def get_documents (s : Store) (c : String) (limit : Nat) : List Doc :=
  ((getColl s c).map (fun p => ("_id", Value.vId p.1) :: p.2)).take limit

/- The five CRUD handlers of main.py. Each returns its response body (or
error) together with the store left behind by the operation. -/

/-- The default of the `limit` query parameter of `list_documents`
(main.py line 111: `limit: int = 100`). -/
def defaultLimit : Nat := 100

/-- list_documents from main.py lines 110-116. -/
def list_documents (store : Store) (collection : String) (limit : Nat) :
    Except ApiError (List Doc) :=
  match lookupModel (lowerStr collection) with
  | none => .error .collectionNotFound
  | some _ => .ok ((get_documents store (lowerStr collection) (min limit 500)).map serialize_doc)

/-- list_documents when the caller supplies no `limit`. -/
def list_documents_default (store : Store) (collection : String) :
    Except ApiError (List Doc) :=
  list_documents store collection defaultLimit

/-- get_document from main.py lines 118-129. The try/except around the
find wraps only the `ObjectId` parse, whose failure maps to 400. -/
def get_document (store : Store) (collection doc_id : String) : Except ApiError Doc :=
  match lookupModel (lowerStr collection) with
  | none => .error .collectionNotFound
  | some _ =>
    match parseObjectId doc_id with
    | none => .error .invalidIdentifier
    | some oid =>
      match find_one store (lowerStr collection) oid with
      | none => .error .notFound
      | some doc => .ok (serialize_doc doc)

/-- create_new_document from main.py lines 131-143. `create_document`
assigns the fresh id, passed explicitly here; the handler then re-reads
the stored record and returns it serialized. -/
def create_new_document (store : Store) (collection : String) (payload : Doc)
    (freshId : String) : Except ApiError Doc × Store :=
  match lookupModel (lowerStr collection) with
  | none => (.error .collectionNotFound, store)
  | some Model =>
    match validateModel Model payload with
    | .error errs => (.error (.validationError errs), store)
    | .ok validated =>
      let s₁ := create_document store (lowerStr collection) freshId validated
      match find_one s₁ (lowerStr collection) freshId with
      | some doc => (.ok (serialize_doc doc), s₁)
      | none => (.ok [], s₁)

/-- update_document from main.py lines 145-168, with the two store round
trips made explicit: `readStore` is the store state at the pre-check
fetch, `writeStore` the state at the `update_one` write (spec section 5
allows these to differ under concurrency). The handler-level try/except
turns the `InvalidId` parse failure into a 422, re-raises the 404 of a
missing record, and turns validation failure into a 422; only then is the
`$set` of the raw payload applied, and a vanished record surfaces through
the matched count as a 404. -/
def update_document_at (readStore writeStore : Store) (collection doc_id : String)
    (payload : Doc) : Except ApiError Doc × Store :=
  match lookupModel (lowerStr collection) with
  | none => (.error .collectionNotFound, writeStore)
  | some Model =>
    match parseObjectId doc_id with
    | none => (.error (.validationError [objectIdErrMsg doc_id]), writeStore)
    | some oid =>
      match find_one readStore (lowerStr collection) oid with
      | none => (.error .notFound, writeStore)
      | some existing =>
        let merged := applySet (existing.filter (fun kv => kv.1 != "_id")) payload
        match validateModel Model merged with
        | .error errs => (.error (.validationError errs), writeStore)
        | .ok _ =>
          let r := update_one writeStore (lowerStr collection) oid payload
          if r.1 = 0 then (.error .notFound, r.2)
          else
            match find_one r.2 (lowerStr collection) oid with
            | some updated => (.ok (serialize_doc updated), r.2)
            | none => (.ok [], r.2)

/-- update_document as executed without interference: both round trips see
the same store. -/
def update_document (store : Store) (collection doc_id : String) (payload : Doc) :
    Except ApiError Doc × Store :=
  update_document_at store store collection doc_id payload

/-- delete_document from main.py lines 170-181; the response body is the
`{"deleted": True, "id": doc_id}` confirmation. -/
def delete_document (store : Store) (collection doc_id : String) :
    Except ApiError Doc × Store :=
  match lookupModel (lowerStr collection) with
  | none => (.error .collectionNotFound, store)
  | some _ =>
    match parseObjectId doc_id with
    | none => (.error .invalidIdentifier, store)
    | some oid =>
      let r := delete_one store (lowerStr collection) oid
      if r.1 = 0 then (.error .notFound, r.2)
      else (.ok [("deleted", .vBool true), ("id", .vStr doc_id)], r.2)

/- ------------------------------------------------------------------ -/
/- Helper lemmas about documents, validation and the store.            -/
/- ------------------------------------------------------------------ -/

theorem dGet_cons (k' : String) (v : Value) (rest : Doc) (k : String) :
    dGet ((k', v) :: rest) k = if k' = k then some v else dGet rest k := rfl

/-- The key of the entry a field contributes to the validated model is the
field name. -/
theorem fieldValue_key (payload : Doc) (f : FieldSpec) (kv : String × Value)
    (h : fieldValue payload f = some kv) : kv.1 = f.name := by
  unfold fieldValue at h
  cases hg : dGet payload f.name with
  | some v => rw [hg] at h; cases h; rfl
  | none =>
    rw [hg] at h
    cases hd : f.default with
    | none => rw [hd] at h; cases h
    | some d => rw [hd] at h; cases h; rfl

/-- A key that names no field of the schema is absent from the validated
model. -/
theorem dGet_fieldValues_not_mem (schema : List FieldSpec) (payload : Doc) (k : String)
    (h : k ∉ schema.map FieldSpec.name) :
    dGet (schema.filterMap (fieldValue payload)) k = none := by
  induction schema with
  | nil => rfl
  | cons g rest ih =>
    have hk : g.name ≠ k := by
      intro he
      exact h (by simp [he])
    have hrest : k ∉ rest.map FieldSpec.name := by
      intro hm
      exact h (by simp [hm])
    rw [List.filterMap_cons]
    cases hg : fieldValue payload g with
    | none => exact ih hrest
    | some kv =>
      have hkey := fieldValue_key payload g kv hg
      cases kv with
      | mk k₁ v₁ =>
        simp only at hkey
        subst hkey
        rw [dGet_cons, if_neg hk]
        exact ih hrest

/-- The payload value overrides, the default fills a hole. -/
def mergeDefault (pv dv : Option Value) : Option Value :=
  match pv with
  | some v => some v
  | none => dv

/-- Each declared field of a successfully validated model carries the
normalized payload value when supplied and the default otherwise. -/
theorem dGet_fieldValues (schema : List FieldSpec) (payload : Doc) (f : FieldSpec)
    (hnd : (schema.map FieldSpec.name).Nodup) (hf : f ∈ schema) :
    dGet (schema.filterMap (fieldValue payload)) f.name
      = mergeDefault ((dGet payload f.name).map f.normalize) f.default := by
  induction schema with
  | nil => cases hf
  | cons g rest ih =>
    rw [List.map_cons, List.nodup_cons] at hnd
    rw [List.filterMap_cons]
    rcases List.mem_cons.mp hf with he | hmem
    · subst he
      cases hg : dGet payload f.name with
      | some v =>
        have hv : fieldValue payload f = some (f.name, f.normalize v) := by
          unfold fieldValue; rw [hg]
        simp [hv, dGet_cons, mergeDefault, hg]
      | none =>
        cases hd : f.default with
        | some d =>
          have hv : fieldValue payload f = some (f.name, d) := by
            unfold fieldValue; rw [hg, hd]; rfl
          simp [hv, dGet_cons, mergeDefault, hg, hd]
        | none =>
          have hv : fieldValue payload f = none := by
            unfold fieldValue; rw [hg, hd]; rfl
          simp only [hv, mergeDefault, hg, hd]
          exact dGet_fieldValues_not_mem rest payload f.name hnd.1
    · have hne : g.name ≠ f.name := by
        intro he
        exact hnd.1 (he ▸ List.mem_map_of_mem FieldSpec.name hmem)
      cases hg : fieldValue payload g with
      | none => exact ih hnd.2 hmem
      | some kv =>
        have hkey := fieldValue_key payload g kv hg
        cases kv with
        | mk k₁ v₁ =>
          simp only at hkey
          subst hkey
          rw [dGet_cons, if_neg hne]
          exact ih hnd.2 hmem

/-- Every entry of a validated model is a declared field of the schema. -/
theorem fieldValues_keys_declared (schema : List FieldSpec) (payload : Doc)
    (kv : String × Value) (h : kv ∈ schema.filterMap (fieldValue payload)) :
    kv.1 ∈ schema.map FieldSpec.name := by
  rcases List.mem_filterMap.mp h with ⟨f, hf, hv⟩
  exact (fieldValue_key payload f kv hv) ▸ List.mem_map_of_mem FieldSpec.name hf

/-- A failing validation returns exactly the list of per-field errors. -/
theorem validateModel_error_eq (schema : List FieldSpec) (payload : Doc)
    (errs : List String) (h : validateModel schema payload = .error errs) :
    errs = validationErrors schema payload := by
  unfold validateModel at h
  by_cases he : validationErrors schema payload = []
  · rw [if_pos he] at h; cases h
  · rw [if_neg he] at h; cases h; rfl

/-- Every field whose check fails (or which is required and missing)
contributes its error to the collected error list. -/
theorem validationErrors_complete (schema : List FieldSpec) (payload : Doc)
    (f : FieldSpec) (e : String) (hf : f ∈ schema) (he : fieldError payload f = some e) :
    e ∈ validationErrors schema payload :=
  List.mem_filterMap.mpr ⟨f, hf, he⟩

/-- Validation only reads the payload at the declared field names. -/
theorem validateModel_congr (schema : List FieldSpec) (p₁ p₂ : Doc)
    (h : ∀ f ∈ schema, dGet p₁ f.name = dGet p₂ f.name) :
    validateModel schema p₁ = validateModel schema p₂ := by
  have herr : validationErrors schema p₁ = validationErrors schema p₂ := by
    unfold validationErrors
    refine List.filterMap_congr (fun f hf => ?_)
    unfold fieldError
    rw [h f hf]
  have hval : schema.filterMap (fieldValue p₁) = schema.filterMap (fieldValue p₂) := by
    refine List.filterMap_congr (fun f hf => ?_)
    unfold fieldValue
    rw [h f hf]
  unfold validateModel
  rw [herr, hval]

theorem dGet_map_set (d : Doc) (k : String) (v : Value)
    (h : d.any (fun kv => kv.1 == k) = true) :
    dGet (d.map (fun kv => if kv.1 = k then (k, v) else kv)) k = some v := by
  induction d with
  | nil => cases h
  | cons kv rest ih =>
    obtain ⟨k₁, v₁⟩ := kv
    simp only [List.map_cons]
    by_cases hk : k₁ = k
    · rw [if_pos hk, dGet_cons, if_pos rfl]
    · have h₁ : (k₁ == k) = false := beq_false_of_ne hk
      have h₂ : rest.any (fun kv => kv.1 == k) = true := by
        rw [List.any_cons] at h
        simpa [h₁] using h
      rw [if_neg hk, dGet_cons, if_neg hk]
      exact ih h₂

theorem dGet_map_set_other (d : Doc) (k k' : String) (v : Value) (h : k' ≠ k) :
    dGet (d.map (fun kv => if kv.1 = k then (k, v) else kv)) k' = dGet d k' := by
  induction d with
  | nil => rfl
  | cons kv rest ih =>
    obtain ⟨k₁, v₁⟩ := kv
    simp only [List.map_cons]
    by_cases hk : k₁ = k
    · have hne : k ≠ k' := fun he => h he.symm
      have hne₁ : k₁ ≠ k' := fun he => hne (hk.symm.trans he)
      rw [if_pos hk, dGet_cons, if_neg hne, dGet_cons, if_neg hne₁]
      exact ih
    · rw [if_neg hk, dGet_cons, dGet_cons]
      by_cases hk' : k₁ = k'
      · rw [if_pos hk', if_pos hk']
      · rw [if_neg hk', if_neg hk']
        exact ih

theorem dGet_append_new (d : Doc) (k : String) (v : Value)
    (h : d.any (fun kv => kv.1 == k) = false) :
    dGet (d ++ [(k, v)]) k = some v := by
  induction d with
  | nil => simp [dGet]
  | cons kv rest ih =>
    obtain ⟨k₁, v₁⟩ := kv
    rw [List.any_cons] at h
    have h₁ : (k₁ == k) = false := by
      cases hb : (k₁ == k) with
      | false => rfl
      | true => rw [hb] at h; simp at h
    have h₂ : rest.any (fun kv => kv.1 == k) = false := by
      rw [h₁] at h
      simpa using h
    have hk : k₁ ≠ k := ne_of_beq_false h₁
    simp [dGet, hk, ih h₂]

theorem dGet_append_other (d : Doc) (k k' : String) (v : Value) (h : k' ≠ k) :
    dGet (d ++ [(k, v)]) k' = dGet d k' := by
  induction d with
  | nil =>
    have hne : k ≠ k' := fun he => h he.symm
    simp [dGet, hne]
  | cons kv rest ih =>
    obtain ⟨k₁, v₁⟩ := kv
    by_cases hk' : k₁ = k'
    · simp [dGet, hk']
    · simp [dGet, hk', ih]

/-- Setting a key makes the document return that value at the key. -/
theorem dGet_setKey_same (d : Doc) (k : String) (v : Value) :
    dGet (setKey d k v) k = some v := by
  unfold setKey
  by_cases h : d.any (fun kv => kv.1 == k) = true
  · rw [if_pos h]; exact dGet_map_set d k v h
  · rw [if_neg h]
    exact dGet_append_new d k v (Bool.eq_false_iff.mpr h)

/-- Setting one key leaves every other key unchanged. -/
theorem dGet_setKey_other (d : Doc) (k k' : String) (v : Value) (h : k' ≠ k) :
    dGet (setKey d k v) k' = dGet d k' := by
  unfold setKey
  by_cases ha : d.any (fun kv => kv.1 == k) = true
  · rw [if_pos ha]; exact dGet_map_set_other d k k' v h
  · rw [if_neg ha]; exact dGet_append_other d k k' v h

theorem applySet_nil (d : Doc) : applySet d [] = d := rfl

theorem applySet_cons (d : Doc) (k : String) (v : Value) (p : Doc) :
    applySet d ((k, v) :: p) = applySet (setKey d k v) p := rfl

/-- A key absent from the payload is untouched by the `$set`. -/
theorem dGet_applySet_not_mem (p : Doc) (d : Doc) (k : String)
    (h : k ∉ p.map Prod.fst) :
    dGet (applySet d p) k = dGet d k := by
  induction p generalizing d with
  | nil => rfl
  | cons kv rest ih =>
    obtain ⟨k₁, v₁⟩ := kv
    have hk : k ≠ k₁ := by
      intro he
      exact h (by simp [he])
    rw [applySet_cons, ih (setKey d k₁ v₁) (fun hm => h (by simp [hm])),
      dGet_setKey_other d k₁ k v₁ hk]

/-- A key of a duplicate-free payload ends up in the written document with
the payload value. -/
theorem dGet_applySet_mem (p : Doc) (d : Doc) (k : String) (v : Value)
    (hnd : (p.map Prod.fst).Nodup) (h : dGet p k = some v) :
    dGet (applySet d p) k = some v := by
  induction p generalizing d with
  | nil => cases h
  | cons kv rest ih =>
    obtain ⟨k₁, v₁⟩ := kv
    rw [List.map_cons, List.nodup_cons] at hnd
    rw [applySet_cons]
    by_cases hk : k₁ = k
    · subst hk
      rw [dGet_cons, if_pos rfl] at h
      injection h with hv
      subst hv
      rw [dGet_applySet_not_mem rest (setKey d k₁ v₁) k₁ hnd.1]
      exact dGet_setKey_same d k₁ v₁
    · rw [dGet_cons, if_neg hk] at h
      exact ih (setKey d k₁ v₁) hnd.2 h

/- Store lemmas. -/

theorem getColl_setColl_same (s : Store) (c : String) (docs : Coll) :
    getColl (setColl s c docs) c = docs := by
  induction s with
  | nil => simp [setColl, getColl]
  | cons p rest ih =>
    by_cases h : p.1 = c
    · simp [setColl, getColl, h]
    · cases p with
      | mk n d =>
        simp only at h
        simp [setColl, getColl, h, ih]

theorem collFind_append_of_none (l : Coll) (oid : String) (d : Doc)
    (h : collFind l oid = none) :
    collFind (l ++ [(oid, d)]) oid = some d := by
  induction l with
  | nil => simp [collFind]
  | cons p rest ih =>
    cases p with
    | mk i dd =>
      rw [collFind] at h
      by_cases hi : i = oid
      · rw [if_pos hi] at h; cases h
      · rw [if_neg hi] at h
        rw [List.cons_append, collFind, if_neg hi]
        exact ih h

/-- An id that misses the collection makes the `$set` a matched-count-0
no-op. -/
theorem collUpdate_of_none (l : Coll) (oid : String) (p : Doc)
    (h : collFind l oid = none) :
    collUpdate l oid p = (0, l) := by
  induction l with
  | nil => rfl
  | cons q rest ih =>
    cases q with
    | mk i d =>
      rw [collFind] at h
      by_cases hi : i = oid
      · rw [if_pos hi] at h; cases h
      · rw [if_neg hi] at h
        rw [collUpdate, if_neg hi, ih h]

/-- An id that hits the collection makes the `$set` report matched count 1
and rewrite exactly that document. -/
theorem collUpdate_of_some (l : Coll) (oid : String) (p : Doc) (d : Doc)
    (h : collFind l oid = some d) :
    (collUpdate l oid p).1 = 1 ∧ collFind (collUpdate l oid p).2 oid = some (applySet d p) := by
  induction l with
  | nil => cases h
  | cons q rest ih =>
    cases q with
    | mk i dd =>
      rw [collFind] at h
      by_cases hi : i = oid
      · rw [if_pos hi] at h
        cases h
        rw [collUpdate, if_pos hi]
        exact ⟨rfl, by rw [collFind, if_pos hi]⟩
      · rw [if_neg hi] at h
        rw [collUpdate, if_neg hi]
        rcases ih h with ⟨h₁, h₂⟩
        exact ⟨h₁, by rw [collFind, if_neg hi]; exact h₂⟩

/-- find_one misses exactly when the raw collection lookup misses. -/
theorem find_one_none_iff (s : Store) (c oid : String) :
    find_one s c oid = none ↔ collFind (getColl s c) oid = none := by
  unfold find_one
  cases collFind (getColl s c) oid <;> simp

/-- A successful validation returns exactly the declared fields, payload
values overriding defaults. -/
theorem validateModel_ok_eq (schema : List FieldSpec) (payload validated : Doc)
    (h : validateModel schema payload = .ok validated) :
    validated = schema.filterMap (fieldValue payload) := by
  unfold validateModel at h
  by_cases hz : validationErrors schema payload = []
  · rw [if_pos hz] at h
    injection h with h
    exact h.symm
  · rw [if_neg hz] at h
    cases h

/- ------------------------------------------------------------------ -/
/- Concrete fixtures used by witnesses and counterexamples.            -/
/- ------------------------------------------------------------------ -/

/-- A valid ObjectId hex string. -/
def oid1 : String := "64a0b1c2d3e4f56789012345"

/-- A second valid ObjectId hex string. -/
def oid2 : String := "64a0b1c2d3e4f56789012346"

/-- The patient payload of the spec example: only the two required fields. -/
def pAB : Doc := [("first_name", .vStr "A"), ("last_name", .vStr "B")]

/-- The validated model of `pAB`: payload values plus every schema default. -/
def vAB : Doc :=
  [("first_name", .vStr "A"), ("last_name", .vStr "B"), ("date_of_birth", .vNull),
   ("gender", .vNull), ("email", .vNull), ("phone", .vNull), ("address", .vNull),
   ("allergies", .vList []), ("medical_history", .vNull), ("insurance_provider", .vNull),
   ("insurance_member_id", .vNull), ("balance", .vNum 0), ("notes", .vNull)]

/-- A store holding exactly the patient record created from `pAB`. -/
def storeAB : Store := [("patient", [(oid1, vAB)])]

/-- `pAB` plus a field that no patient schema entry declares. -/
def pFoo : Doc := [("first_name", .vStr "A"), ("last_name", .vStr "B"), ("foo", .vNum 1)]

/-- A payment payload whose single item supplies only the two required
PaymentItem fields. -/
def pPay : Doc :=
  [("patient_id", .vStr "p1"), ("amount", .vNum 10), ("method", .vStr "cash"),
   ("items", .vList [.vDoc [("description", .vStr "d"), ("amount", .vNum 1)]])]

/-- The validated model of `pPay`: top-level defaults applied, and the
nested PaymentItem re-constructed with its own defaults filled. -/
def vPay : Doc :=
  [("patient_id", .vStr "p1"), ("amount", .vNum 10), ("method", .vStr "cash"),
   ("status", .vStr "paid"), ("reference", .vNull),
   ("date_time", .vStr "1970-01-01T00:00:00"),
   ("items", .vList [.vDoc
     [("description", .vStr "d"), ("amount", .vNum 1),
      ("procedure_code", .vNull), ("appointment_id", .vNull)]]),
   ("notes", .vNull)]

/-- Observation on an `items` value: the given key of the first item. -/
def firstItemGet (v : Option Value) (k : String) : Option Value :=
  match v with
  | some (.vList (x :: _)) =>
    match x with
    | .vDoc d => dGet d k
    | _ => none
  | _ => none

/-- A document holding ObjectIds at top level, inside a list-valued field
and inside a sub-document. -/
def nestedDoc : Doc :=
  [("_id", .vId oid1),
   ("patient_ids", .vList [.vId oid2]),
   ("details", .vDoc [("ref", .vId oid2)])]

/- ------------------------------------------------------------------ -/
/- The claims.                                                         -/
/- ------------------------------------------------------------------ -/

/-- Claim C1. The claim says every operation taking an identifier path
parameter rejects an unparsable identifier with InvalidIdentifier
(400-equivalent), uniformly across Get, Update and Delete. The code
violates this for Update: the handler-level catch-all turns the
`InvalidId` parse failure into a 422 ValidationError carrying the parse
message, while Get and Delete return the 400 InvalidIdentifier. This
theorem evaluates all three handlers at the malformed identifier
"not-a-valid-id". -/
theorem C1_update_malformed_id_is_validation_error :
    get_document [] "patient" "not-a-valid-id" = .error .invalidIdentifier
    ∧ delete_document [] "patient" "not-a-valid-id" = (.error .invalidIdentifier, [])
    ∧ (update_document [] "patient" "not-a-valid-id" []).1
        = .error (.validationError [objectIdErrMsg "not-a-valid-id"])
    ∧ ApiError.validationError [objectIdErrMsg "not-a-valid-id"] ≠ ApiError.invalidIdentifier := by
  refine ⟨rfl, rfl, rfl, ?_⟩
  intro hcontra
  cases hcontra

/-- Claim C2 counterexample. serialize_doc converts only top-level
ObjectId values: an ObjectId inside a list-valued field and one inside a
sub-document leave the service boundary unconverted, refuting the part of
the claim that covers identifiers nested inside sub-documents and
list-valued fields. -/
theorem C2_nested_ids_not_serialized :
    serialize_doc nestedDoc
      = [("_id", .vStr oid1),
         ("patient_ids", .vList [.vId oid2]),
         ("details", .vDoc [("ref", .vId oid2)])]
    ∧ dGet (serialize_doc nestedDoc) "patient_ids" = some (.vList [.vId oid2])
    ∧ dGet (serialize_doc nestedDoc) "details" = some (.vDoc [("ref", .vId oid2)]) :=
  ⟨rfl, rfl, rfl⟩

theorem serializeValue_ne_vId (v : Value) (oid : String) :
    serializeValue v ≠ .vId oid := by
  cases v <;> intro hcontra <;> cases hcontra

theorem serialize_doc_no_ids (doc : Doc) :
    ∀ kv ∈ serialize_doc doc, ∀ oid, kv.2 ≠ .vId oid := by
  intro kv hm oid
  unfold serialize_doc at hm
  rcases List.mem_map.mp hm with ⟨kv₀, _, he⟩
  rw [← he]
  exact serializeValue_ne_vId kv₀.2 oid

/-- Claim C2 (amended). Every record returned by Get, List, Create or
Update has its identifier and every other top-level ObjectId value
rendered as a plain string — no returned record contains a top-level
ObjectId — and this holds for single records and for every element of a
listed sequence. ObjectIds nested inside sub-documents or list-valued
fields are not converted (see the counterexample). -/
theorem C2_top_level_ids_serialized :
    (∀ doc : Doc, ∀ kv ∈ serialize_doc doc, ∀ oid, kv.2 ≠ Value.vId oid)
    ∧ (∀ store c limit ds, list_documents store c limit = .ok ds →
        ∀ d ∈ ds, ∀ kv ∈ d, ∀ oid, kv.2 ≠ Value.vId oid)
    ∧ (∀ store c did d, get_document store c did = .ok d →
        ∀ kv ∈ d, ∀ oid, kv.2 ≠ Value.vId oid)
    ∧ (∀ store c payload fid d s₁,
        create_new_document store c payload fid = (.ok d, s₁) →
        ∀ kv ∈ d, ∀ oid, kv.2 ≠ Value.vId oid)
    ∧ (∀ rs ws c did payload d s₁,
        update_document_at rs ws c did payload = (.ok d, s₁) →
        ∀ kv ∈ d, ∀ oid, kv.2 ≠ Value.vId oid) := by
  refine ⟨serialize_doc_no_ids, ?_, ?_, ?_, ?_⟩
  · intro store c limit ds h d hd
    unfold list_documents at h
    split at h
    · cases h
    · injection h with h
      subst h
      rcases List.mem_map.mp hd with ⟨d₀, _, he⟩
      rw [← he]
      exact serialize_doc_no_ids d₀
  · intro store c did d h
    unfold get_document at h
    split at h
    · cases h
    · split at h
      · cases h
      · split at h
        · cases h
        · injection h with h
          subst h
          exact serialize_doc_no_ids _
  · intro store c payload fid d s₁ h
    unfold create_new_document at h
    dsimp only at h
    split at h
    · cases h
    · split at h
      · cases h
      · split at h
        · injection h with h₁ h₂
          injection h₁ with h₁
          subst h₁
          exact serialize_doc_no_ids _
        · injection h with h₁ h₂
          injection h₁ with h₁
          subst h₁
          intro kv hkv
          cases hkv
  · intro rs ws c did payload d s₁ h
    unfold update_document_at at h
    dsimp only at h
    split at h
    · cases h
    · split at h
      · cases h
      · split at h
        · cases h
        · split at h
          · cases h
          · split at h
            · cases h
            · split at h
              · injection h with h₁ h₂
                injection h₁ with h₁
                subst h₁
                exact serialize_doc_no_ids _
              · injection h with h₁ h₂
                injection h₁ with h₁
                subst h₁
                intro kv hkv
                cases hkv

/-- Claim C2 witness: the Get conjunct applied at a concrete store; the
record returned for the stored patient carries its identifier as a string,
not as an ObjectId. -/
theorem C2_top_level_ids_serialized_witness : Value.vStr oid1 ≠ Value.vId oid1 :=
  C2_top_level_ids_serialized.2.2.1 storeAB "patient" oid1
    (serialize_doc (("_id", Value.vId oid1) :: vAB)) rfl
    ("_id", Value.vStr oid1) (List.mem_cons_self _ _) oid1

/-- Claim C7 counterexample. "Patient" is not a key of the registry
(MODEL_MAP holds only lowercase names), yet neither List nor Get returns
CollectionNotFound for it — Get even reads the record out of the store —
because every handler lowercases the name before the registry lookup. -/
theorem C7_uppercase_name_not_rejected :
    MODEL_MAP.find? (fun p => p.1 == "Patient") = none
    ∧ list_documents [] "Patient" 100 = .ok []
    ∧ get_document storeAB "Patient" oid1
        = .ok (serialize_doc (("_id", Value.vId oid1) :: vAB)) :=
  ⟨rfl, rfl, rfl⟩

/-- Claim C7 (amended). For every collection name whose lowercased form is
not in the registry, each of the five operations returns
CollectionNotFound, leaves the store exactly as it was, and does so for
every store alike — the registry check precedes any store access. -/
theorem C7_unknown_collection_rejected_untouched
    (store : Store) (c did fid : String) (limit : Nat) (payload : Doc)
    (hc : lookupModel (lowerStr c) = none) :
    list_documents store c limit = .error .collectionNotFound
    ∧ get_document store c did = .error .collectionNotFound
    ∧ create_new_document store c payload fid = (.error .collectionNotFound, store)
    ∧ update_document store c did payload = (.error .collectionNotFound, store)
    ∧ delete_document store c did = (.error .collectionNotFound, store) := by
  unfold list_documents get_document create_new_document update_document
    update_document_at delete_document
  rw [hc]
  exact ⟨rfl, rfl, rfl, rfl, rfl⟩

/-- Claim C7 witness: the amended theorem applied to the unsupported name
"invoice" on a non-empty store. -/
theorem C7_unknown_collection_rejected_untouched_witness :
    list_documents storeAB "invoice" 100 = .error .collectionNotFound
    ∧ delete_document storeAB "invoice" oid1 = (.error .collectionNotFound, storeAB) :=
  have t := C7_unknown_collection_rejected_untouched storeAB "invoice" oid1 oid1 100 [] rfl
  ⟨t.1, t.2.2.2.2⟩

/-- Claim C3. An Update whose merged record (existing fields overridden by
the payload) fails schema validation returns ValidationError and leaves
the whole store — in particular the stored record — exactly unchanged:
validation happens before the write, and the error path performs no
write. -/
theorem C3_update_validation_failure_leaves_store
    (store : Store) (c did oid : String) (payload existing : Doc)
    (schema : List FieldSpec) (errs : List String)
    (hc : lookupModel (lowerStr c) = some schema)
    (hp : parseObjectId did = some oid)
    (hf : find_one store (lowerStr c) oid = some existing)
    (hv : validateModel schema
            (applySet (existing.filter (fun kv => kv.1 != "_id")) payload)
          = .error errs) :
    update_document store c did payload = (.error (.validationError errs), store) := by
  unfold update_document update_document_at
  rw [hc, hp]
  dsimp only
  rw [hf]
  dsimp only
  rw [hv]

/-- Claim C3 witness: the spec example — updating the stored patient with
balance = -5 violates the `balance ≥ 0` constraint; the handler returns
the 422 and the store is returned byte-for-byte unchanged. -/
theorem C3_update_validation_failure_leaves_store_witness :
    update_document storeAB "patient" oid1 [("balance", .vNum (-5))]
      = (.error (.validationError ["balance: invalid value"]), storeAB) :=
  C3_update_validation_failure_leaves_store storeAB "patient" oid1 oid1
    [("balance", .vNum (-5))] (("_id", .vId oid1) :: vAB) Patient
    ["balance: invalid value"] rfl rfl rfl rfl

/-- Claim C4. When the record exists at the pre-check fetch (read store)
and the merged validation succeeds, but the record is gone by the time the
write is applied (write store), `update_one` reports matched count 0 and
the handler surfaces NotFound — not a silent no-op success — leaving the
write-time store unchanged. -/
theorem C4_update_after_concurrent_delete_is_not_found
    (readStore writeStore : Store) (c did oid : String)
    (payload existing validated : Doc) (schema : List FieldSpec)
    (hc : lookupModel (lowerStr c) = some schema)
    (hp : parseObjectId did = some oid)
    (hr : find_one readStore (lowerStr c) oid = some existing)
    (hv : validateModel schema
            (applySet (existing.filter (fun kv => kv.1 != "_id")) payload)
          = .ok validated)
    (hw : find_one writeStore (lowerStr c) oid = none) :
    update_document_at readStore writeStore c did payload
      = (.error .notFound, writeStore) := by
  have h0 : collUpdate (getColl writeStore (lowerStr c)) oid payload
      = (0, getColl writeStore (lowerStr c)) :=
    collUpdate_of_none _ oid payload
      ((find_one_none_iff writeStore (lowerStr c) oid).mp hw)
  unfold update_document_at
  rw [hc, hp]
  dsimp only
  rw [hr]
  dsimp only
  rw [hv]
  dsimp only
  unfold update_one
  rw [h0]
  simp

/-- Claim C4 witness: the stored patient is visible at the pre-check fetch
but the write hits an emptied store; the update reports NotFound. -/
theorem C4_update_after_concurrent_delete_is_not_found_witness :
    update_document_at storeAB [] "patient" oid1 [("notes", .vStr "x")]
      = (.error .notFound, []) :=
  C4_update_after_concurrent_delete_is_not_found storeAB [] "patient" oid1 oid1
    [("notes", .vStr "x")] (("_id", .vId oid1) :: vAB) _ Patient rfl rfl rfl rfl rfl

/-- Claim C6. For every supported collection name, List returns exactly
the first `min(limit, 500)` stored records serialized; hence it never
returns more than `min(limit, 500)` records, returns all records when the
collection holds no more than that bound, returns the empty sequence (not
an error) for an empty collection, and uses limit 100 when the caller
supplies none. -/
theorem C6_list_limit_bounds
    (store : Store) (c : String) (limit : Nat) (schema : List FieldSpec)
    (hc : lookupModel (lowerStr c) = some schema) :
    list_documents store c limit
      = .ok (((getColl store (lowerStr c)).map
          (fun p => serialize_doc (("_id", Value.vId p.1) :: p.2))).take (min limit 500))
    ∧ (∀ ds, list_documents store c limit = .ok ds → ds.length ≤ min limit 500)
    ∧ (∀ ds, list_documents store c limit = .ok ds →
        (getColl store (lowerStr c)).length ≤ min limit 500 →
        ds = (getColl store (lowerStr c)).map
          (fun p => serialize_doc (("_id", Value.vId p.1) :: p.2)))
    ∧ (getColl store (lowerStr c) = [] → list_documents store c limit = .ok [])
    ∧ list_documents_default store c = list_documents store c 100 := by
  have h1 : list_documents store c limit
      = .ok (((getColl store (lowerStr c)).map
          (fun p => serialize_doc (("_id", Value.vId p.1) :: p.2))).take (min limit 500)) := by
    unfold list_documents get_documents
    rw [hc]
    dsimp only
    rw [List.map_take, List.map_map]
    rfl
  refine ⟨h1, ?_, ?_, ?_, rfl⟩
  · intro ds hds
    rw [h1] at hds
    injection hds with hds
    subst hds
    rw [List.length_take]
    exact min_le_left _ _
  · intro ds hds hlen
    rw [h1] at hds
    injection hds with hds
    subst hds
    apply List.take_of_length_le
    rw [List.length_map]
    exact hlen
  · intro hempty
    rw [h1, hempty]
    simp

/-- Claim C6 witness: the bound theorem applied to the one-record patient
store at the default limit, and to an empty store. -/
theorem C6_list_limit_bounds_witness :
    list_documents storeAB "patient" 100
      = .ok [serialize_doc (("_id", Value.vId oid1) :: vAB)]
    ∧ list_documents [] "patient" 100 = .ok []
    ∧ list_documents_default storeAB "patient" = list_documents storeAB "patient" 100 :=
  have t := C6_list_limit_bounds storeAB "patient" 100 Patient rfl
  have t₀ := C6_list_limit_bounds ([] : Store) "patient" 100 Patient rfl
  ⟨t.1, t₀.2.2.2.1 rfl, t.2.2.2.2⟩

/-- Claim C8. When validation fails, the collected error list contains the
error of every violated field (a failing constraint on a present value, or
a missing required field) — not only the first — and both Create and
Update surface exactly that full list inside their ValidationError. -/
theorem C8_validation_reports_every_violation
    (schema : List FieldSpec) (payload : Doc) (errs : List String)
    (h : validateModel schema payload = .error errs) :
    (∀ f ∈ schema, ∀ e, fieldError payload f = some e → e ∈ errs)
    ∧ (∀ store c fid, lookupModel (lowerStr c) = some schema →
        create_new_document store c payload fid
          = (.error (.validationError errs), store))
    ∧ (∀ rs c did oid existing p₂, lookupModel (lowerStr c) = some schema →
        parseObjectId did = some oid →
        find_one rs (lowerStr c) oid = some existing →
        applySet (existing.filter (fun kv => kv.1 != "_id")) p₂ = payload →
        update_document rs c did p₂ = (.error (.validationError errs), rs)) := by
  have he := validateModel_error_eq schema payload errs h
  refine ⟨?_, ?_, ?_⟩
  · intro f hf e hfe
    rw [he]
    exact validationErrors_complete schema payload f e hf hfe
  · intro store c fid hc
    unfold create_new_document
    rw [hc]
    dsimp only
    rw [h]
  · intro rs c did oid existing p₂ hc hp hfo hm
    unfold update_document update_document_at
    rw [hc, hp]
    dsimp only
    rw [hfo]
    dsimp only
    rw [hm, h]

/-- Claim C8 witness: the empty patient payload violates both required
fields; the error list carries both, and Create surfaces the full list. -/
theorem C8_validation_reports_every_violation_witness :
    ("first_name: field required"
        ∈ ["first_name: field required", "last_name: field required"]
    ∧ "last_name: field required"
        ∈ ["first_name: field required", "last_name: field required"])
    ∧ create_new_document [] "patient" [] oid1
        = (.error (.validationError
            ["first_name: field required", "last_name: field required"]), []) :=
  have h : validateModel Patient []
      = .error ["first_name: field required", "last_name: field required"] := rfl
  have t := C8_validation_reports_every_violation Patient [] _ h
  ⟨⟨t.1 ⟨"first_name", true, none, isStr, idNorm⟩ (List.mem_cons_self _ _) _ rfl,
    t.1 ⟨"last_name", true, none, isStr, idNorm⟩
      (List.mem_cons_of_mem _ (List.mem_cons_self _ _)) _ rfl⟩,
   t.2.1 [] "patient" oid1 rfl⟩

/-- Claim C5 counterexample. Two payloads that pass validation come back
from Create-then-Get with fields that do not equal the payload plus the
defaults for omitted fields. First, a patient payload carrying a field no
schema entry declares ("foo"): Create drops it, so "foo" is in the payload
and absent from the fetched record. Second, a payment payload whose item
supplies only the required PaymentItem fields: validation re-constructs
the nested model, so the fetched items field carries the nested defaults
(procedure_code, appointment_id) that the payload value does not. -/
theorem C5_round_trip_differs_from_raw_payload :
    (dGet pFoo "foo" = some (.vNum 1)
     ∧ (create_new_document [] "patient" pFoo oid1).1
         = .ok (serialize_doc (("_id", Value.vId oid1) :: vAB))
     ∧ get_document (create_new_document [] "patient" pFoo oid1).2 "patient" oid1
         = .ok (serialize_doc (("_id", Value.vId oid1) :: vAB))
     ∧ dGet (serialize_doc (("_id", Value.vId oid1) :: vAB)) "foo" = none)
    ∧ (get_document (create_new_document [] "payment" pPay oid2).2 "payment" oid2
         = .ok (serialize_doc (("_id", Value.vId oid2) :: vPay))
       ∧ dGet (serialize_doc (("_id", Value.vId oid2) :: vPay)) "items"
           = dGet vPay "items"
       ∧ firstItemGet (dGet pPay "items") "procedure_code" = none
       ∧ firstItemGet (dGet vPay "items") "procedure_code" = some .vNull) :=
  ⟨⟨rfl, rfl, rfl, rfl⟩, ⟨rfl, rfl, rfl, rfl⟩⟩

/-- Claim C5 (amended). For every supported collection and every payload
that passes the schema validation, Create followed immediately by Get of
the fresh identifier returns the stored record: the string-rendered
identifier plus every declared field, each field holding the
validation-normalized payload value when supplied and the schema default
otherwise. Normalization is the identity on scalar fields but
re-constructs nested PaymentItem sub-documents, filling their defaults;
undeclared payload fields are dropped by Create — see the counterexample
for both divergences from the raw payload. -/
theorem C5_create_then_get_round_trip
    (store : Store) (c : String) (schema : List FieldSpec)
    (payload validated : Doc) (fid : String)
    (hc : lookupModel (lowerStr c) = some schema)
    (hnd : (schema.map FieldSpec.name).Nodup)
    (hv : validateModel schema payload = .ok validated)
    (hfid : parseObjectId fid = some fid)
    (hfresh : collFind (getColl store (lowerStr c)) fid = none) :
    (create_new_document store c payload fid).1
        = .ok (serialize_doc (("_id", Value.vId fid) :: validated))
    ∧ get_document (create_new_document store c payload fid).2 c fid
        = .ok (serialize_doc (("_id", Value.vId fid) :: validated))
    ∧ ∀ f ∈ schema, dGet validated f.name
        = mergeDefault ((dGet payload f.name).map f.normalize) f.default := by
  have hvv := validateModel_ok_eq schema payload validated hv
  have hfind : find_one (create_document store (lowerStr c) fid validated)
      (lowerStr c) fid = some (("_id", Value.vId fid) :: validated) := by
    unfold find_one create_document
    rw [getColl_setColl_same, collFind_append_of_none _ _ _ hfresh]
    rfl
  have hcreate : create_new_document store c payload fid
      = (.ok (serialize_doc (("_id", Value.vId fid) :: validated)),
         create_document store (lowerStr c) fid validated) := by
    unfold create_new_document
    rw [hc]
    dsimp only
    rw [hv]
    dsimp only
    rw [hfind]
  refine ⟨by rw [hcreate], ?_, ?_⟩
  · rw [hcreate]
    unfold get_document
    rw [hc, hfid]
    dsimp only
    rw [hfind]
  · intro f hf
    rw [hvv]
    exact dGet_fieldValues schema payload f hnd hf

/-- Claim C5 witness: the spec example — creating a patient from only
first_name and last_name and fetching it back returns the record with
every default applied; in particular the stored balance is 0. -/
theorem C5_create_then_get_round_trip_witness :
    (create_new_document [] "patient" pAB oid1).1
        = .ok (serialize_doc (("_id", Value.vId oid1) :: vAB))
    ∧ get_document (create_new_document [] "patient" pAB oid1).2 "patient" oid1
        = .ok (serialize_doc (("_id", Value.vId oid1) :: vAB))
    ∧ dGet vAB "balance" = some (.vNum 0) :=
  have t := C5_create_then_get_round_trip [] "patient" Patient pAB vAB oid1
    rfl (by decide) rfl rfl rfl
  ⟨t.1, t.2.1,
   t.2.2 ⟨"balance", false, some (.vNum 0), numGe 0, idNorm⟩
     (List.mem_cons_of_mem _ (List.mem_cons_of_mem _ (List.mem_cons_of_mem _
      (List.mem_cons_of_mem _ (List.mem_cons_of_mem _ (List.mem_cons_of_mem _
      (List.mem_cons_of_mem _ (List.mem_cons_of_mem _ (List.mem_cons_of_mem _
      (List.mem_cons_of_mem _ (List.mem_cons_of_mem _
        (List.mem_cons_self _ _))))))))))))⟩

/-- Claim C9. Every handler lowercases the collection path parameter
before the registry lookup, so any two case variants with the same
lowercase form are indistinguishable through every operation, and a name
whose lowercase form is registered is never rejected as
CollectionNotFound. -/
theorem C9_collection_names_case_insensitive
    (store : Store) (c c' : String) (limit : Nat) (did fid : String) (payload : Doc)
    (h : lowerStr c = lowerStr c') :
    (list_documents store c limit = list_documents store c' limit
     ∧ get_document store c did = get_document store c' did
     ∧ create_new_document store c payload fid = create_new_document store c' payload fid
     ∧ update_document store c did payload = update_document store c' did payload
     ∧ delete_document store c did = delete_document store c' did)
    ∧ (∀ schema, lookupModel (lowerStr c) = some schema →
        list_documents store c limit ≠ .error .collectionNotFound
        ∧ get_document store c did ≠ .error .collectionNotFound
        ∧ (create_new_document store c payload fid).1 ≠ .error .collectionNotFound
        ∧ (update_document store c did payload).1 ≠ .error .collectionNotFound
        ∧ (delete_document store c did).1 ≠ .error .collectionNotFound) := by
  constructor
  · unfold list_documents get_document create_new_document update_document
      update_document_at delete_document
    rw [h]
    exact ⟨rfl, rfl, rfl, rfl, rfl⟩
  · intro schema hs
    refine ⟨?_, ?_, ?_, ?_, ?_⟩
    · unfold list_documents
      rw [hs]
      intro hcontra
      cases hcontra
    · unfold get_document
      rw [hs]
      dsimp only
      split
      · intro hcontra; cases hcontra
      · split
        · intro hcontra; cases hcontra
        · intro hcontra; cases hcontra
    · unfold create_new_document
      rw [hs]
      dsimp only
      split
      · intro hcontra; cases hcontra
      · split
        · intro hcontra; cases hcontra
        · intro hcontra; cases hcontra
    · unfold update_document update_document_at
      rw [hs]
      dsimp only
      split
      · intro hcontra; cases hcontra
      · split
        · intro hcontra; cases hcontra
        · split
          · intro hcontra; cases hcontra
          · split
            · intro hcontra; cases hcontra
            · split
              · intro hcontra; cases hcontra
              · intro hcontra; cases hcontra
    · unfold delete_document
      rw [hs]
      dsimp only
      split
      · intro hcontra; cases hcontra
      · split
        · intro hcontra; cases hcontra
        · intro hcontra; cases hcontra

/-- Claim C9 witness: "PATIENT" and "patient" behave identically, and the
uppercase variant is not rejected. -/
theorem C9_collection_names_case_insensitive_witness :
    list_documents storeAB "PATIENT" 100 = list_documents storeAB "patient" 100
    ∧ get_document storeAB "PATIENT" oid1 ≠ .error .collectionNotFound :=
  have t := C9_collection_names_case_insensitive storeAB "PATIENT" "patient"
    100 oid1 oid1 [] rfl
  ⟨t.1.1, (t.2 Patient rfl).2.1⟩

/-- Claim C10. Validation depends only on the payload at the declared
field names, so undeclared fields never cause a ValidationError; a
successfully validated model contains only declared fields, so Create
persists only those; but Update writes the raw payload — an undeclared
payload field is persisted onto the stored record by a successful
Update. -/
theorem C10_undeclared_fields_ignored_and_update_persists :
    (∀ (schema : List FieldSpec) (p₁ p₂ : Doc),
        (∀ f ∈ schema, dGet p₁ f.name = dGet p₂ f.name) →
        validateModel schema p₁ = validateModel schema p₂)
    ∧ (∀ (schema : List FieldSpec) (payload validated : Doc),
        validateModel schema payload = .ok validated →
        ∀ kv ∈ validated, kv.1 ∈ schema.map FieldSpec.name)
    ∧ (∀ (store : Store) (c did oid : String) (existing validated payload : Doc)
        (k : String) (v : Value) (schema : List FieldSpec),
        lookupModel (lowerStr c) = some schema →
        parseObjectId did = some oid →
        find_one store (lowerStr c) oid = some existing →
        validateModel schema
            (applySet (existing.filter (fun kv => kv.1 != "_id")) payload)
          = .ok validated →
        (payload.map Prod.fst).Nodup →
        k ≠ "_id" →
        dGet payload k = some v →
        ∃ stored,
          find_one (update_document store c did payload).2 (lowerStr c) oid
            = some stored
          ∧ dGet stored k = some v) := by
  refine ⟨validateModel_congr, ?_, ?_⟩
  · intro schema payload validated hv kv hkv
    rw [validateModel_ok_eq schema payload validated hv] at hkv
    exact fieldValues_keys_declared schema payload kv hkv
  · intro store c did oid existing validated payload k v schema hc hp hfo hv hnd hk hpk
    have hd₀ : ∃ d₀, collFind (getColl store (lowerStr c)) oid = some d₀
        ∧ existing = ("_id", Value.vId oid) :: d₀ := by
      unfold find_one at hfo
      cases hcf : collFind (getColl store (lowerStr c)) oid with
      | none => rw [hcf] at hfo; cases hfo
      | some d₀ =>
        rw [hcf] at hfo
        injection hfo with hfo
        exact ⟨d₀, rfl, hfo.symm⟩
    obtain ⟨d₀, hcf, hex⟩ := hd₀
    have hcu := collUpdate_of_some (getColl store (lowerStr c)) oid payload d₀ hcf
    have hu1 : update_one store (lowerStr c) oid payload
        = (1, setColl store (lowerStr c)
            (collUpdate (getColl store (lowerStr c)) oid payload).2) := by
      unfold update_one
      dsimp only
      rw [hcu.1]
      simp
    have hupd : (update_document store c did payload).2
        = setColl store (lowerStr c)
            (collUpdate (getColl store (lowerStr c)) oid payload).2 := by
      unfold update_document update_document_at
      rw [hc, hp]
      dsimp only
      rw [hfo]
      dsimp only
      rw [hv]
      dsimp only
      rw [hu1]
      dsimp only
      split
      · rfl
      · split <;> rfl
    have hfind : find_one (update_document store c did payload).2 (lowerStr c) oid
        = some (("_id", Value.vId oid) :: applySet d₀ payload) := by
      rw [hupd]
      unfold find_one
      rw [getColl_setColl_same, hcu.2]
      rfl
    refine ⟨("_id", Value.vId oid) :: applySet d₀ payload, hfind, ?_⟩
    rw [dGet_cons, if_neg (fun he => hk he.symm)]
    exact dGet_applySet_mem payload d₀ k v hnd hpk

/-- Claim C10 witness: updating the stored patient with the undeclared
field "foo" succeeds and persists "foo" onto the stored record. -/
theorem C10_undeclared_fields_ignored_and_update_persists_witness :
    ∃ stored,
      find_one (update_document storeAB "patient" oid1 [("foo", .vNum 1)]).2
          (lowerStr "patient") oid1 = some stored
      ∧ dGet stored "foo" = some (.vNum 1) :=
  C10_undeclared_fields_ignored_and_update_persists.2.2 storeAB "patient" oid1 oid1
    (("_id", .vId oid1) :: vAB) _ [("foo", .vNum 1)] "foo" (.vNum 1) Patient
    rfl rfl rfl rfl (by simp) (by decide) rfl

end Clinic
